import Mathlib

set_option maxRecDepth 16384

/-!
# Verification of the lazycelery packaging scripts

A shallow embedding of the two Python utilities of this repository:

* `src/packaging/generate_packages.py` — the package-manifest generator
  (metadata loader, input sanitizer/validators, six template renderers,
  and the driver `main`);
* `src/scripts/validate-versions.py` — the version-consistency checker
  (`VersionValidator` and its `main`).

File contents are modelled as `String`s; the filesystem that the checker
touches is modelled by an explicit `FS` record; the single network effect
(`calculate_sha256_from_url`) is modelled as an oracle argument
`fetch : String → Option String` that is threaded to the generators.
Python `\d` in a `str` pattern matches exactly the Unicode decimal
digits (general category `Nd`); it is modelled by `pyIsDigit`, built on
the `Nd` range table of the CPython 3.11 Unicode data.  The explicit
character classes of the relevant patterns (`[0-9.]`,
`[a-zA-Z0-9\-\.]`, …) are listed literally and so are exact; `\s` is
modelled over the ASCII whitespace subset, which is the range the
repository's data exercises.  Python's `$` anchor matches at the end of
the string *or just before a trailing newline*; the version and URL
matchers below reproduce that behaviour exactly.
-/

/-- Split a character list at every occurrence of `c` (Python
`s.split(c)`; an empty input gives one empty part, like Python). -/
def splitCharL (c : Char) : List Char → List (List Char)
  | [] => [[]]
  | x :: rest =>
    if x = c then [] :: splitCharL c rest
    else
      match splitCharL c rest with
      | h :: t => (x :: h) :: t
      | [] => [[x]]

/-- Python `s.split(c)` on strings. -/
def pySplitChar (s : String) (c : Char) : List String :=
  (splitCharL c s.data).map String.mk

/-- Python `s.startswith(pre)`. -/
def pyStartsWith (s pre : String) : Bool := pre.data.isPrefixOf s.data

/-- Python `s.endswith(suf)`. -/
def pyEndsWith (s suf : String) : Bool :=
  suf.data.reverse.isPrefixOf s.data.reverse

/-- Join with a separator (Python `sep.join(parts)`). -/
def pyIntercalate (sep : String) : List String → String
  | [] => ""
  | [x] => x
  | x :: rest => x ++ sep ++ pyIntercalate sep rest

/-- The subset of Python values the hand-rolled TOML reader of
`generate_packages.py` can produce for a `[package]` key: a string, or a
list of strings.  (`sanitize_input`'s `isinstance(value, str)` check
distinguishes the two.) -/
inductive PyVal where
  | str (s : String)
  | list (l : List String)
deriving DecidableEq, Repr

/-- Python `str()` of such a value, as used when it is interpolated into
an f-string template (`str` renders itself; a list renders as
`['a', 'b']`). -/
def pyToStr (v : PyVal) : String :=
  match v with
  | .str s => s
  | .list l => "[" ++ pyIntercalate ", " (l.map (fun x => "'" ++ x ++ "'")) ++ "]"

/-- Python `' '.join(x)`: joins a list with spaces; iterating a string
joins its characters. -/
def pyJoin (v : PyVal) : String :=
  match v with
  | .str s => pyIntercalate " " (s.data.map (fun c => String.mk [c]))
  | .list l => pyIntercalate " " l

/-- The ASCII whitespace characters stripped by Python's `str.strip()`
(and matched by `\s`). -/
def pyIsSpace (c : Char) : Bool :=
  c == ' ' || c == '\t' || c == '\n' || c == '\r' || c == '\x0b' || c == '\x0c'

/-- Python `s.strip(chars)`: drop characters satisfying `p` from both ends. -/
def pyStripWith (p : Char → Bool) (s : String) : String :=
  String.mk (((s.data.dropWhile p).reverse.dropWhile p).reverse)

/-- Python `s.strip()`. -/
def pyStrip (s : String) : String := pyStripWith pyIsSpace s

/-- Python `s.strip('"\'')`. -/
def stripQuotes (s : String) : String :=
  pyStripWith (fun c => c == '"' || c == '\'') s

/-- Substring test on character lists (`needle` occurs somewhere in
`hay`), modelling Python's `in` operator on strings. -/
def containsL (hay sub : List Char) : Bool :=
  sub.isPrefixOf hay ||
    (match hay with
     | [] => false
     | _ :: t => containsL t sub)

/-- Substring test on strings (Python `sub in hay`). -/
def containsS (hay sub : String) : Bool := containsL hay.data sub.data

/-- Python `s.split(c, 1)`: the part before the first occurrence of `c`
and the part after it (the whole string and `""` if `c` is absent). -/
def splitOnce (s : String) (c : Char) : String × String :=
  match s.data.dropWhile (· ≠ c) with
  | _ :: rest => (String.mk (s.data.takeWhile (· ≠ c)), String.mk rest)
  | [] => (s, "")

/-- Insert-or-overwrite for the association lists modelling Python dicts
(later assignments overwrite in place, insertion order is kept). -/
def dictInsert {α : Type} (d : List (String × α)) (k : String) (v : α) :
    List (String × α) :=
  if d.any (fun p => p.1 == k) then
    d.map (fun p => if p.1 == k then (k, v) else p)
  else
    d ++ [(k, v)]

/-- Python `dict.get`. -/
def dictGet {α : Type} (d : List (String × α)) (k : String) : Option α :=
  (d.find? (fun p => p.1 == k)).map (fun p => p.2)

/-! ## `generate_packages.py`: the metadata loader -/

/-- One step of `parse_toml_simple`'s line loop (generator variant,
with array handling). -/
def parsePackageLines :
    List String → Bool → List (String × PyVal) → List (String × PyVal)
  | [], _, d => d
  | line :: rest, inPkg, d =>
    let l := pyStrip line
    if l == "[package]" then parsePackageLines rest true d
    else if pyStartsWith l "[" then parsePackageLines rest false d
    else if inPkg && containsS l "=" then
      let kv := splitOnce l '='
      let key := pyStrip kv.1
      let value := stripQuotes (pyStrip kv.2)
      let pv : PyVal :=
        if pyStartsWith value "[" && pyEndsWith value "]" then
          let inner := String.mk ((value.data.drop 1).dropLast)
          if inner.data.isEmpty then .list []
          else .list ((pySplitChar inner ',').map (fun item => stripQuotes (pyStrip item)))
        else .str value
      parsePackageLines rest inPkg (dictInsert d key pv)
    else parsePackageLines rest inPkg d

/-- Model of `parse_toml_simple` in `generate_packages.py`: extract the
`[package]` section's key/value pairs from the file content. -/
def parse_toml_simple (content : String) : List (String × PyVal) :=
  parsePackageLines (pySplitChar content '\n') false []

/-- The metadata mapping returned by `load_cargo_metadata`. -/
structure Metadata where
  name : PyVal
  version : PyVal
  description : PyVal
  authors : List String
  license : PyVal
  repository : PyVal
  homepage : PyVal
  keywords : PyVal
  categories : PyVal
deriving DecidableEq, Repr

/-- Model of `load_cargo_metadata`, on the content of `Cargo.toml` (the file read
itself is modelled by passing the content). -/
def load_cargo_metadata (content : String) : Metadata :=
  let package := parse_toml_simple content
  let authors0 := (dictGet package "authors").getD (.list ["Unknown"])
  let authorsStr :=
    match authors0 with
    | .list [] => "Unknown"
    | .list (a :: _) => a
    | .str s => s
  { name := (dictGet package "name").getD (.str "lazycelery"),
    version := (dictGet package "version").getD (.str "0.4.0"),
    description := (dictGet package "description").getD
      (.str "Terminal UI for monitoring Celery"),
    authors := [authorsStr],
    license := (dictGet package "license").getD (.str "MIT"),
    repository := (dictGet package "repository").getD
      (.str "https://github.com/Fguedes90/lazycelery"),
    homepage := (dictGet package "homepage").getD
      (.str "https://github.com/Fguedes90/lazycelery"),
    keywords := (dictGet package "keywords").getD
      (.list ["celery", "tui", "terminal", "monitoring", "redis"]),
    categories := (dictGet package "categories").getD
      (.list ["command-line-utilities"]) }

/-! ## `generate_packages.py`: sanitizer and validators -/

/-- The default `allowed_chars` of `sanitize_input`. -/
def default_allowed_chars : String :=
  "abcdefghijklmnopqrstuvwxyzABCDEFGHIJKLMNOPQRSTUVWXYZ0123456789.-_/:"

/-- Model of `sanitize_input`: not a string, too long, or a character outside the
allowed set raises `ValueError`; otherwise the input is returned
unchanged. -/
def sanitize_input (value : PyVal) (max_length : Nat := 256)
    (allowed_chars : Option String := none) : Except String String :=
  match value with
  | .list _ => .error "Input must be a string"
  | .str s =>
    if s.length > max_length then
      .error ("Input exceeds maximum length of " ++ toString max_length)
    else
      let allowed := allowed_chars.getD default_allowed_chars
      match s.data.find? (fun c => !(allowed.data.contains c)) with
      | some c => .error ("Invalid character '" ++ String.mk [c] ++ "' in input")
      | none => .ok s

/-- The character class `[a-zA-Z0-9\-\.]` of `validate_version`'s
pre-release group. -/
def isPreChar (c : Char) : Bool :=
  c.isAlpha || c.isDigit || c == '-' || c == '.'

/-- An ending test for Python's `$` anchor: it matches at the end of the
string or just before a newline that ends the string. -/
def dollarEnd (r : List Char) : Bool := r.isEmpty || r == ['\n']

/-- An ending test demanding the true end of the string (what the spec's
grammar, with no trailing newline, asks for). -/
def strictEnd (r : List Char) : Bool := r.isEmpty

/-- The inclusive code-point ranges of the Unicode decimal digits
(general category `Nd`), as tabulated by the Unicode data of the
CPython 3.11 interpreter that runs these scripts.  Python's `\d` in a
`str` pattern matches exactly these characters. -/
def ndDigitRanges : List (Nat × Nat) :=
  [(48, 57), (1632, 1641), (1776, 1785), (1984, 1993), (2406, 2415),
   (2534, 2543), (2662, 2671), (2790, 2799), (2918, 2927), (3046, 3055),
   (3174, 3183), (3302, 3311), (3430, 3439), (3558, 3567), (3664, 3673),
   (3792, 3801), (3872, 3881), (4160, 4169), (4240, 4249), (6112, 6121),
   (6160, 6169), (6470, 6479), (6608, 6617), (6784, 6793), (6800, 6809),
   (6992, 7001), (7088, 7097), (7232, 7241), (7248, 7257), (42528, 42537),
   (43216, 43225), (43264, 43273), (43472, 43481), (43504, 43513),
   (43600, 43609), (44016, 44025), (65296, 65305), (66720, 66729),
   (68912, 68921), (69734, 69743), (69872, 69881), (69942, 69951),
   (70096, 70105), (70384, 70393), (70736, 70745), (70864, 70873),
   (71248, 71257), (71360, 71369), (71472, 71481), (71904, 71913),
   (72016, 72025), (72784, 72793), (73040, 73049), (73120, 73129),
   (92768, 92777), (92864, 92873), (93008, 93017), (120782, 120831),
   (123200, 123209), (123632, 123641), (125264, 125273), (130032, 130041)]

/-- Python's `\d` on a `str` pattern: every Unicode decimal digit, not
only ASCII `0`–`9`. -/
def pyIsDigit (c : Char) : Bool :=
  ndDigitRanges.any (fun r => r.1 ≤ c.toNat && c.toNat ≤ r.2)

/-- Match a nonempty run of `isD`-digits followed by a literal `.`;
returns the run and what follows the dot.  (Building block of `\d+\.`;
the source's digit class is `pyIsDigit`, while the claim's grammar reads
`MAJOR.MINOR.PATCH` over ASCII digits — the matcher is parameterised so
both can be compared.) -/
def afterDot (isD : Char → Bool) (cs : List Char) : Option (List Char × List Char) :=
  if (cs.takeWhile isD).isEmpty then none
  else if (cs.dropWhile isD).head? = some '.' then
    some (cs.takeWhile isD, (cs.dropWhile isD).tail)
  else none

/-- The tail of the version regex after `\d+\.\d+\.\d+`: the optional
greedy pre-release group `(-[a-zA-Z0-9\-\.]+)?` followed by the `$`
test `ending`. -/
def preGroupOrEnd (ending : List Char → Bool) (r3 : List Char) : Bool :=
  ending r3 ||
    (if r3.head? = some '-' then
      !(r3.tail.takeWhile isPreChar).isEmpty && ending (r3.tail.dropWhile isPreChar)
    else false)

/-- The matcher for `^\d+\.\d+\.\d+(-[a-zA-Z0-9\-\.]+)?$` under
`re.match`, parameterised by the digit class read for `\d` and by the
interpretation of the final `$`. -/
def matchSemverWith (isD : Char → Bool) (ending : List Char → Bool)
    (cs : List Char) : Bool :=
  match afterDot isD cs with
  | none => false
  | some (_, r1) =>
    match afterDot isD r1 with
    | none => false
    | some (_, r2) =>
      if (r2.takeWhile isD).isEmpty then false
      else preGroupOrEnd ending (r2.dropWhile isD)

/-- Model of `validate_version`: returns the input unchanged when the
semantic version regex matches — with `\d` as the Unicode decimal
digits and `$` as `re.match` reads it — raises `ValueError` otherwise
(and `TypeError` on a non-string, as `re.match` would). -/
def validate_version (version : PyVal) : Except String String :=
  match version with
  | .str s =>
    if matchSemverWith pyIsDigit dollarEnd s.data then .ok s
    else .error ("Invalid version format: " ++ s)
  | .list _ => .error "TypeError: expected string or bytes-like object"

/-- The character class `[a-zA-Z0-9\-\.]` of `validate_url`'s host part
(same characters as `isPreChar`). -/
def isHostChar (c : Char) : Bool :=
  c.isAlpha || c.isDigit || c == '-' || c == '.'

/-- The matcher for `^https?://[a-zA-Z0-9\-\.]+(/.*)?$` under `re.match`
(`.` does not match a newline; `$` as in `dollarEnd`). -/
def matchUrl (cs : List Char) : Bool :=
  let afterScheme : Option (List Char) :=
    if "https://".data.isPrefixOf cs then some (cs.drop 8)
    else if "http://".data.isPrefixOf cs then some (cs.drop 7)
    else none
  match afterScheme with
  | none => false
  | some rest =>
    let host := rest.takeWhile isHostChar
    let r1 := rest.dropWhile isHostChar
    if host.isEmpty then false
    else
      dollarEnd r1 ||
        (match r1 with
         | '/' :: r2 => dollarEnd (r2.dropWhile (fun c => c ≠ '\n'))
         | _ => false)

/-- Model of `validate_url`. -/
def validate_url (url : PyVal) : Except String String :=
  match url with
  | .str s =>
    if matchUrl s.data then .ok s
    else .error ("Invalid URL format: " ++ s)
  | .list _ => .error "TypeError: expected string or bytes-like object"

/-! ## Helper lemmas on lists and matching -/

instance : DecidableEq (Except String String) := fun a b =>
  match a, b with
  | .ok x, .ok y =>
    if h : x = y then .isTrue (by rw [h]) else .isFalse (by simp [h])
  | .ok _, .error _ => .isFalse (fun h => Except.noConfusion h)
  | .error _, .ok _ => .isFalse (fun h => Except.noConfusion h)
  | .error x, .error y =>
    if h : x = y then .isTrue (by rw [h]) else .isFalse (by simp [h])

theorem takeWhile_append_eq {p : Char → Bool} (a b : List Char)
    (ha : ∀ x ∈ a, p x = true) (hb : ∀ c, b.head? = some c → p c = false) :
    (a ++ b).takeWhile p = a ∧ (a ++ b).dropWhile p = b := by
  induction a with
  | nil =>
    simp only [List.nil_append]
    cases b with
    | nil => simp
    | cons c t =>
      have hc := hb c rfl
      simp [List.takeWhile_cons, List.dropWhile_cons, hc]
  | cons x xs ih =>
    have hx : p x = true := ha x (by simp)
    have ih' := ih (fun y hy => ha y (by simp [hy]))
    simp [List.takeWhile_cons, List.dropWhile_cons, hx, ih'.1, ih'.2]

theorem afterDot_eq_some {isD : Char → Bool} (hdot : isD '.' = false)
    {cs d r : List Char} :
    afterDot isD cs = some (d, r) ↔
      d ≠ [] ∧ (∀ c ∈ d, isD c = true) ∧ cs = d ++ '.' :: r := by
  constructor
  · intro h
    unfold afterDot at h
    split_ifs at h with h1 h2
    simp only [Option.some.injEq, Prod.mk.injEq] at h
    obtain ⟨hd, hr⟩ := h
    have hsplit := List.takeWhile_append_dropWhile isD cs
    have hcons : '.' :: (cs.dropWhile isD).tail = cs.dropWhile isD :=
      List.cons_head?_tail h2
    refine ⟨?_, ?_, ?_⟩
    · rw [← hd]
      simpa [List.isEmpty_iff] using h1
    · intro c hc
      rw [← hd] at hc
      exact List.mem_takeWhile_imp hc
    · rw [← hd, ← hr, hcons, hsplit]
  · rintro ⟨hne, hdig, rfl⟩
    have hsp := takeWhile_append_eq d ('.' :: r) hdig
      (by
        intro c hc
        simp only [List.head?_cons, Option.some.injEq] at hc
        subst hc
        exact hdot)
    unfold afterDot
    rw [hsp.1, hsp.2]
    simp [List.isEmpty_iff, hne]

/-- The version grammar over a digit class `isD`:
`MAJOR.MINOR.PATCH` with an optional `-prerelease` suffix composed of
alphanumerics, hyphens, and dots — and nothing after it. -/
def semverGrammarWith (isD : Char → Bool) (cs : List Char) : Prop :=
  ∃ d1 d2 d3 pre, cs = d1 ++ '.' :: (d2 ++ '.' :: (d3 ++ pre)) ∧
    (d1 ≠ [] ∧ ∀ c ∈ d1, isD c = true) ∧
    (d2 ≠ [] ∧ ∀ c ∈ d2, isD c = true) ∧
    (d3 ≠ [] ∧ ∀ c ∈ d3, isD c = true) ∧
    (pre = [] ∨ ∃ p, pre = '-' :: p ∧ p ≠ [] ∧ ∀ c ∈ p, isPreChar c = true)

/-- The claim's version grammar, written from the spec's words, with
`MAJOR`, `MINOR` and `PATCH` read as (ASCII) digit runs. -/
def specSemverGrammar (cs : List Char) : Prop :=
  semverGrammarWith Char.isDigit cs

/-- The language the source's regex body actually reads: the same
grammar with the digit positions drawn from `\d`, i.e. every Unicode
decimal digit. -/
def pySemverGrammar (cs : List Char) : Prop :=
  semverGrammarWith pyIsDigit cs

theorem ascii_digit_is_py_digit {c : Char} (h : c.isDigit = true) :
    pyIsDigit c = true := by
  simp only [Char.isDigit, Bool.and_eq_true, decide_eq_true_eq] at h
  obtain ⟨h1, h2⟩ := h
  have h1n : 48 ≤ c.toNat := h1
  have h2n : c.toNat ≤ 57 := h2
  unfold pyIsDigit
  rw [List.any_eq_true]
  refine ⟨(48, 57), by decide, ?_⟩
  simp only [Bool.and_eq_true, decide_eq_true_eq]
  exact ⟨h1n, h2n⟩

theorem specSemverGrammar_sub_py {cs : List Char} (h : specSemverGrammar cs) :
    pySemverGrammar cs := by
  obtain ⟨d1, d2, d3, pre, hcs, ⟨h1n, h1d⟩, ⟨h2n, h2d⟩, ⟨h3n, h3d⟩, hpre⟩ := h
  exact ⟨d1, d2, d3, pre, hcs,
    ⟨h1n, fun c hc => ascii_digit_is_py_digit (h1d c hc)⟩,
    ⟨h2n, fun c hc => ascii_digit_is_py_digit (h2d c hc)⟩,
    ⟨h3n, fun c hc => ascii_digit_is_py_digit (h3d c hc)⟩, hpre⟩

theorem dollarEnd_true_iff (r : List Char) :
    dollarEnd r = true ↔ r = [] ∨ r = ['\n'] := by
  simp [dollarEnd, List.isEmpty_iff]

theorem preGroupOrEnd_iff (ending : List Char → Bool)
    (hE : ∀ r, ending r = true → r = [] ∨ r = ['\n']) (r3 : List Char) :
    preGroupOrEnd ending r3 = true ↔
      ∃ pre r, r3 = pre ++ r ∧ ending r = true ∧
        (pre = [] ∨ ∃ p, pre = '-' :: p ∧ p ≠ [] ∧ ∀ c ∈ p, isPreChar c = true) := by
  unfold preGroupOrEnd
  constructor
  · intro h
    cases hend : ending r3 with
    | true => exact ⟨[], r3, by simp, hend, Or.inl rfl⟩
    | false =>
      rw [hend, Bool.false_or] at h
      split_ifs at h with hh
      · have hcons : '-' :: r3.tail = r3 := List.cons_head?_tail hh
        simp only [Bool.and_eq_true] at h
        obtain ⟨hp, hend2⟩ := h
        have hpe : r3.tail.takeWhile isPreChar ≠ [] := by
          simpa [List.isEmpty_iff] using hp
        refine ⟨'-' :: r3.tail.takeWhile isPreChar, r3.tail.dropWhile isPreChar,
          ?_, hend2, Or.inr ⟨r3.tail.takeWhile isPreChar, rfl, hpe,
            fun c hc => List.mem_takeWhile_imp hc⟩⟩
        rw [← hcons]
        simp [List.takeWhile_append_dropWhile]
  · rintro ⟨pre, r, rfl, hend, hpre | ⟨p, rfl, hpne, hpchars⟩⟩
    · subst hpre
      simp [hend]
    · have hsp := takeWhile_append_eq p r hpchars
        (by
          intro c hc
          rcases hE r hend with rfl | rfl
          · exact absurd hc (by simp)
          · simp only [List.head?_cons, Option.some.injEq] at hc
            subst hc
            decide)
      simp only [List.cons_append, List.head?_cons, List.tail_cons]
      simp [hsp.1, hsp.2, List.isEmpty_iff, hpne, hend]

theorem matchSemverWith_iff (isD : Char → Bool) (ending : List Char → Bool)
    (hdot : isD '.' = false) (hnl : isD '\n' = false) (hdash : isD '-' = false)
    (hE : ∀ r, ending r = true → r = [] ∨ r = ['\n']) (cs : List Char) :
    matchSemverWith isD ending cs = true ↔
      ∃ body r, cs = body ++ r ∧ semverGrammarWith isD body ∧ ending r = true := by
  constructor
  · intro h
    unfold matchSemverWith at h
    cases h1 : afterDot isD cs with
    | none => rw [h1] at h; exact absurd h (by simp)
    | some pr1 =>
      obtain ⟨d1, r1⟩ := pr1
      rw [h1] at h
      dsimp only at h
      cases h2 : afterDot isD r1 with
      | none => rw [h2] at h; exact absurd h (by simp)
      | some pr2 =>
        obtain ⟨d2, r2⟩ := pr2
        rw [h2] at h
        dsimp only at h
        by_cases h3 : (r2.takeWhile isD).isEmpty
        · rw [if_pos h3] at h; exact absurd h (by simp)
        · rw [if_neg h3] at h
          obtain ⟨hd1ne, hd1dig, hcs⟩ := (afterDot_eq_some hdot).mp h1
          obtain ⟨hd2ne, hd2dig, hr1⟩ := (afterDot_eq_some hdot).mp h2
          obtain ⟨pre, r, hsplit, hend, hpre⟩ := (preGroupOrEnd_iff ending hE _).mp h
          have hd3ne : r2.takeWhile isD ≠ [] := by
            simpa [List.isEmpty_iff] using h3
          refine ⟨d1 ++ '.' :: (d2 ++ '.' :: (r2.takeWhile isD ++ pre)), r,
            ?_, ?_, hend⟩
          · rw [hcs, hr1]
            have hthis : r2 = r2.takeWhile isD ++ (pre ++ r) := by
              rw [← hsplit, List.takeWhile_append_dropWhile]
            conv_lhs => rw [hthis]
            simp [List.append_assoc]
          · exact ⟨d1, d2, r2.takeWhile isD, pre, rfl,
              ⟨hd1ne, hd1dig⟩, ⟨hd2ne, hd2dig⟩,
              ⟨hd3ne, fun c hc => List.mem_takeWhile_imp hc⟩, hpre⟩
  · rintro ⟨body, r, rfl, ⟨d1, d2, d3, pre, rfl, hd1, hd2, hd3, hpre⟩, hend⟩
    have hblock : ∀ c, (pre ++ r).head? = some c → isD c = false := by
      intro c hc
      rcases hpre with rfl | ⟨p, rfl, _, _⟩
      · rcases hE r hend with rfl | rfl
        · exact absurd hc (by simp)
        · simp only [List.nil_append, List.head?_cons, Option.some.injEq] at hc
          subst hc; exact hnl
      · simp only [List.cons_append, List.head?_cons, Option.some.injEq] at hc
        subst hc; exact hdash
    have hsp3 := takeWhile_append_eq d3 (pre ++ r) hd3.2 hblock
    have ha1 : afterDot isD ((d1 ++ '.' :: (d2 ++ '.' :: (d3 ++ pre))) ++ r) =
        some (d1, (d2 ++ '.' :: (d3 ++ pre)) ++ r) := by
      rw [afterDot_eq_some hdot]
      exact ⟨hd1.1, hd1.2, by simp [List.append_assoc]⟩
    have ha2 : afterDot isD ((d2 ++ '.' :: (d3 ++ pre)) ++ r) =
        some (d2, (d3 ++ pre) ++ r) := by
      rw [afterDot_eq_some hdot]
      exact ⟨hd2.1, hd2.2, by simp [List.append_assoc]⟩
    have hrw : (d3 ++ pre) ++ r = d3 ++ (pre ++ r) := by simp [List.append_assoc]
    unfold matchSemverWith
    rw [ha1]
    dsimp only
    rw [ha2]
    dsimp only
    simp only [hrw, hsp3.1, hsp3.2]
    rw [if_neg (by simpa [List.isEmpty_iff] using hd3.1)]
    rw [preGroupOrEnd_iff ending hE]
    exact ⟨pre, r, rfl, hend, hpre⟩

/-- C2, counterexample: `validate_version` accepts strings outside the
`MAJOR.MINOR.PATCH[-pre]` grammar in two ways.  `re.match`'s `$` also
matches just before a trailing newline, so `"1.2.3\n"` is returned
unchanged; and `\d` in a `str` pattern matches every Unicode decimal
digit, so the Arabic-Indic `"١.٢.٣"` (U+0661, U+0662, U+0663) is also
returned unchanged, although neither string is in the grammar. -/
theorem validate_version_accepts_beyond_grammar :
    (validate_version (.str "1.2.3\n") = .ok "1.2.3\n" ∧
      ¬ specSemverGrammar ("1.2.3\n".data)) ∧
    (validate_version (.str "١.٢.٣") = .ok "١.٢.٣" ∧
      ¬ specSemverGrammar ("١.٢.٣".data)) := by
  have hnil : ∀ r : List Char, strictEnd r = true → r = [] ∨ r = ['\n'] := by
    intro r h
    exact Or.inl (by simpa [strictEnd, List.isEmpty_iff] using h)
  refine ⟨⟨by decide, ?_⟩, ⟨by decide, ?_⟩⟩
  · intro hs
    have h := (matchSemverWith_iff Char.isDigit strictEnd (by decide) (by decide)
        (by decide) hnil ("1.2.3\n".data)).mpr
      ⟨"1.2.3\n".data, [], by simp, hs, rfl⟩
    exact absurd h (by decide)
  · intro hs
    have h := (matchSemverWith_iff Char.isDigit strictEnd (by decide) (by decide)
        (by decide) hnil ("١.٢.٣".data)).mpr
      ⟨"١.٢.٣".data, [], by simp, hs, rfl⟩
    exact absurd h (by decide)

/-- C2, amended: `validate_version` returns the input string unchanged
exactly when it matches `MAJOR.MINOR.PATCH` — with the digit positions
drawn from `\d`, i.e. any Unicode decimal digits, not only ASCII
`0`–`9` — with an optional `-prerelease` suffix of ASCII alphanumerics,
hyphens and dots, *or* is such a match followed by one trailing
newline.  In particular every string of the claim's (ASCII-digit)
grammar is returned unchanged, and on every other string the function
raises the invalid-version `ValueError`. -/
theorem validate_version_ok_iff (s : String) :
    (validate_version (.str s) = .ok s ↔
      pySemverGrammar s.data ∨ ∃ u, s.data = u ++ ['\n'] ∧ pySemverGrammar u) ∧
    (specSemverGrammar s.data → validate_version (.str s) = .ok s) ∧
    (validate_version (.str s) ≠ .ok s →
      validate_version (.str s) = .error ("Invalid version format: " ++ s)) := by
  have hdollar : ∀ r, dollarEnd r = true → r = [] ∨ r = ['\n'] :=
    fun r h => (dollarEnd_true_iff r).mp h
  have key : matchSemverWith pyIsDigit dollarEnd s.data = true ↔
      (pySemverGrammar s.data ∨ ∃ u, s.data = u ++ ['\n'] ∧ pySemverGrammar u) := by
    rw [matchSemverWith_iff pyIsDigit dollarEnd (by decide) (by decide) (by decide)
      hdollar s.data]
    constructor
    · rintro ⟨body, r, hcs, hspec, hend⟩
      rcases (dollarEnd_true_iff r).mp hend with rfl | rfl
      · left
        rw [hcs]
        simpa using hspec
      · right
        exact ⟨body, hcs, hspec⟩
    · rintro (hs | ⟨u, hu, hspec⟩)
      · exact ⟨s.data, [], by simp, hs, by decide⟩
      · exact ⟨u, ['\n'], hu, hspec, by decide⟩
  have hfirst : validate_version (.str s) = .ok s ↔
      pySemverGrammar s.data ∨ ∃ u, s.data = u ++ ['\n'] ∧ pySemverGrammar u := by
    simp only [validate_version]
    by_cases hm : matchSemverWith pyIsDigit dollarEnd s.data
    · rw [if_pos hm]
      simpa using key.mp hm
    · rw [if_neg hm]
      constructor
      · intro h
        exact absurd h (by simp)
      · intro h
        exact absurd (key.mpr h) hm
  refine ⟨hfirst, ?_, ?_⟩
  · intro hs
    exact hfirst.mpr (Or.inl (specSemverGrammar_sub_py hs))
  · intro hne
    simp only [validate_version] at hne ⊢
    by_cases hm : matchSemverWith pyIsDigit dollarEnd s.data
    · rw [if_pos hm] at hne
      exact absurd rfl hne
    · rw [if_neg hm]

theorem contains_char_iff (l : List Char) (a : Char) :
    l.contains a = true ↔ a ∈ l := by
  simp [List.contains, List.elem_iff]

/-- C7: on a string input, `sanitize_input` with any configured charset
(the passed `allowed_chars`, or the default when none is passed) is the
identity exactly when the string is within the length bound and every
character is in that charset; whenever it is not the identity it raises
either the length-limit `ValueError` or the invalid-character
`ValueError` naming an offending character; a non-string input always
raises `ValueError`; and the default charset holds exactly the ASCII
letters (codes 65–90 and 97–122), the ASCII digits (codes 48–57), and
the five characters `.` `-` `_` `/` `:` (codes 46, 45, 95, 47, 58). -/
theorem sanitize_input_spec :
    (∀ (s : String) (n : Nat) (ac : Option String),
        sanitize_input (.str s) n ac = .ok s ↔
          s.length ≤ n ∧ ∀ c ∈ s.data, c ∈ (ac.getD default_allowed_chars).data) ∧
    (∀ (s : String) (n : Nat) (ac : Option String),
        sanitize_input (.str s) n ac ≠ .ok s →
          sanitize_input (.str s) n ac =
              .error ("Input exceeds maximum length of " ++ toString n) ∨
            ∃ c, c ∈ s.data ∧ c ∉ (ac.getD default_allowed_chars).data ∧
              sanitize_input (.str s) n ac =
                .error ("Invalid character '" ++ String.mk [c] ++ "' in input")) ∧
    (∀ (l : List String) (n : Nat) (ac : Option String),
        sanitize_input (.list l) n ac = .error "Input must be a string") ∧
    (∀ c ∈ default_allowed_chars.data, c.toNat < 128) ∧
    (∀ n : Nat, n < 128 →
        (Char.ofNat n ∈ default_allowed_chars.data ↔
          (65 ≤ n ∧ n ≤ 90) ∨ (97 ≤ n ∧ n ≤ 122) ∨ (48 ≤ n ∧ n ≤ 57) ∨
            n = 46 ∨ n = 45 ∨ n = 95 ∨ n = 47 ∨ n = 58)) := by
  have hstr : ∀ (s : String) (n : Nat) (ac : Option String),
      sanitize_input (.str s) n ac =
        if s.length > n then
          .error ("Input exceeds maximum length of " ++ toString n)
        else
          match s.data.find?
              (fun c => !((ac.getD default_allowed_chars).data.contains c)) with
          | some c =>
            .error ("Invalid character '" ++ String.mk [c] ++ "' in input")
          | none => .ok s := by
    intro s n ac
    rfl
  have hok : ∀ (s : String) (n : Nat) (ac : Option String),
      sanitize_input (.str s) n ac = .ok s ↔
        s.length ≤ n ∧ ∀ c ∈ s.data, c ∈ (ac.getD default_allowed_chars).data := by
    intro s n ac
    rw [hstr]
    by_cases hl : s.length > n
    · rw [if_pos hl]
      constructor
      · intro h
        exact absurd h (by simp)
      · rintro ⟨h1, _⟩
        exact absurd h1 (by omega)
    · rw [if_neg hl]
      cases hf : s.data.find?
          (fun c => !((ac.getD default_allowed_chars).data.contains c)) with
      | some c =>
        dsimp only
        constructor
        · intro h
          exact absurd h (by simp)
        · rintro ⟨_, h2⟩
          have hc1 := List.find?_some hf
          have hc2 := List.mem_of_find?_eq_some hf
          have := h2 c hc2
          rw [Bool.not_eq_true'] at hc1
          rw [← contains_char_iff] at this
          rw [this] at hc1
          exact absurd hc1 (by simp)
      | none =>
        dsimp only
        constructor
        · intro _
          refine ⟨by omega, ?_⟩
          intro c hc
          have := List.find?_eq_none.mp hf c hc
          rw [← contains_char_iff]
          simpa using this
        · intro _
          rfl
  refine ⟨hok, ?_, fun l n ac => rfl, by decide, by decide⟩
  intro s n ac hne
  rw [hstr]
  by_cases hl : s.length > n
  · rw [if_pos hl]
    exact Or.inl rfl
  · rw [if_neg hl]
    cases hf : s.data.find?
        (fun c => !((ac.getD default_allowed_chars).data.contains c)) with
    | some c =>
      dsimp only
      refine Or.inr ⟨c, List.mem_of_find?_eq_some hf, ?_, rfl⟩
      have hc1 := List.find?_some hf
      rw [Bool.not_eq_true'] at hc1
      intro hmem
      rw [← contains_char_iff] at hmem
      rw [hmem] at hc1
      exact absurd hc1 (by simp)
    | none =>
      exfalso
      apply hne
      refine (hok s n ac).mpr ⟨by omega, ?_⟩
      intro c hc
      have := List.find?_eq_none.mp hf c hc
      rw [← contains_char_iff]
      simpa using this

/-! ## `generate_packages.py`: the six manifest generators

`calculate_sha256_from_url` performs the only network access; it is
modelled by the oracle `fetch : String → Option String` (`none` is the
"could not calculate hash" outcome).  Each generator is a function of
the metadata, the `calculate_hashes` flag, and that oracle, returning
`.error` where the Python function would raise. -/

/-- The `allowed_chars` the generators pass for package names. -/
def name_allowed_chars : String := "abcdefghijklmnopqrstuvwxyz0123456789-"

/-- Python `str.capitalize()`: first character upper-cased, the rest
lower-cased. -/
def pyCapitalize (s : String) : String :=
  match s.data with
  | [] => ""
  | c :: rest => String.mk (c.toUpper :: rest.map Char.toLower)

def hexDigit (n : Nat) : Char :=
  if n < 10 then Char.ofNat (48 + n) else Char.ofNat (87 + n)

def toHex4 (n : Nat) : List Char :=
  [hexDigit (n / 4096 % 16), hexDigit (n / 256 % 16),
   hexDigit (n / 16 % 16), hexDigit (n % 16)]

/-- How `json.dumps` (with its default `ensure_ascii=True`) renders one
character inside a JSON string. -/
def jsonEscapeChar (c : Char) : List Char :=
  if c = '"' then ['\\', '"']
  else if c = '\\' then ['\\', '\\']
  else if c = '\n' then ['\\', 'n']
  else if c = '\r' then ['\\', 'r']
  else if c = '\t' then ['\\', 't']
  else if c = '\x08' then ['\\', 'b']
  else if c = '\x0c' then ['\\', 'f']
  else if 32 ≤ c.toNat && c.toNat ≤ 126 then [c]
  else if c.toNat < 65536 then '\\' :: 'u' :: toHex4 c.toNat
  else
    ('\\' :: 'u' :: toHex4 (55296 + (c.toNat - 65536) / 1024)) ++
      ('\\' :: 'u' :: toHex4 (56320 + (c.toNat - 65536) % 1024))

def jsonEscape (s : String) : String :=
  String.mk (s.data.foldr (fun c acc => jsonEscapeChar c ++ acc) [])

/-- A `json.dumps` string literal: quoted and escaped. -/
def jsonStr (s : String) : String := "\"" ++ jsonEscape s ++ "\""

/-- Model of `generate_pkgbuild_source`. -/
def generate_pkgbuild_source (m : Metadata) (calculate_hashes : Bool)
    (fetch : String → Option String) : Except String String :=
  match sanitize_input m.name 50 (some name_allowed_chars) with
  | .error e => .error e
  | .ok name =>
  match validate_version m.version with
  | .error e => .error e
  | .ok version =>
  match validate_url m.repository with
  | .error e => .error e
  | .ok repository =>
  match validate_url m.homepage with
  | .error e => .error e
  | .ok homepage =>
  let sha256_hash :=
    if calculate_hashes then
      match fetch (repository ++ "/archive/v" ++ version ++ ".tar.gz") with
      | some h => h
      | none => "PLACEHOLDER_SHA256"
    else "PLACEHOLDER_SHA256"
  match m.authors with
  | [] => .error "IndexError: list index out of range"
  | author :: _ =>
    .ok ("# Maintainer: " ++ author
      ++ "\npkgname=" ++ name
      ++ "\npkgver=" ++ version
      ++ "\npkgrel=1\npkgdesc=\"" ++ pyToStr m.description
      ++ "\"\narch=('x86_64')\nurl=\"" ++ homepage
      ++ "\"\nlicense=('" ++ pyToStr m.license
      ++ "')\ndepends=('gcc-libs')\nmakedepends=('rust' 'cargo')\nsource=(\"$pkgname-$pkgver.tar.gz::"
      ++ repository
      ++ "/archive/v$pkgver.tar.gz\")\nsha256sums=('" ++ sha256_hash
      ++ "')\n\nbuild() \x7b\n    cd \"$pkgname-$pkgver\"\n    export RUSTUP_TOOLCHAIN=stable\n    export CARGO_TARGET_DIR=target\n    cargo build --release --locked\n\x7d\n\ncheck() \x7b\n    cd \"$pkgname-$pkgver\"\n    export RUSTUP_TOOLCHAIN=stable\n    cargo test --release --locked\n\x7d\n\npackage() \x7b\n    cd \"$pkgname-$pkgver\"\n    install -Dm755 target/release/$pkgname \"$pkgdir/usr/bin/$pkgname\"\n    install -Dm644 LICENSE \"$pkgdir/usr/share/licenses/$pkgname/LICENSE\"\n    install -Dm644 README.md \"$pkgdir/usr/share/doc/$pkgname/README.md\"\n\x7d")

/-- Model of `generate_pkgbuild_bin`. -/
def generate_pkgbuild_bin (m : Metadata) (calculate_hashes : Bool)
    (fetch : String → Option String) : Except String String :=
  match sanitize_input m.name 50 (some name_allowed_chars) with
  | .error e => .error e
  | .ok name =>
  match validate_version m.version with
  | .error e => .error e
  | .ok version =>
  match validate_url m.repository with
  | .error e => .error e
  | .ok repository =>
  match validate_url m.homepage with
  | .error e => .error e
  | .ok homepage =>
  let sha256_hash :=
    if calculate_hashes then
      match fetch (repository ++ "/releases/download/v" ++ version ++ "/" ++ name
          ++ "-linux-x86_64.tar.gz") with
      | some h => h
      | none => "PLACEHOLDER_SHA256"
    else "PLACEHOLDER_SHA256"
  match m.authors with
  | [] => .error "IndexError: list index out of range"
  | author :: _ =>
    .ok ("# Maintainer: " ++ author
      ++ "\npkgname=" ++ name
      ++ "-bin\npkgver=" ++ version
      ++ "\npkgrel=1\npkgdesc=\"" ++ pyToStr m.description
      ++ " (binary release)\"\narch=('x86_64')\nurl=\"" ++ homepage
      ++ "\"\nlicense=('" ++ pyToStr m.license
      ++ "')\ndepends=('gcc-libs')\nprovides=('" ++ name
      ++ "')\nconflicts=('" ++ name
      ++ "')\nsource_x86_64=(\"" ++ repository
      ++ "/releases/download/v$pkgver/" ++ name
      ++ "-linux-x86_64.tar.gz\")\nsha256sums_x86_64=('" ++ sha256_hash
      ++ "')\n\npackage() \x7b\n    install -Dm755 " ++ pyToStr m.name
      ++ " \"$pkgdir/usr/bin/" ++ pyToStr m.name
      ++ "\"\n    \n    # Download and install license and docs\n    curl -sL \"" ++ pyToStr m.repository
      ++ "/raw/v$pkgver/LICENSE\" -o LICENSE\n    curl -sL \"" ++ pyToStr m.repository
      ++ "/raw/v$pkgver/README.md\" -o README.md\n    \n    install -Dm644 LICENSE \"$pkgdir/usr/share/licenses/$pkgname/LICENSE\"\n    install -Dm644 README.md \"$pkgdir/usr/share/doc/$pkgname/README.md\"\n\x7d")

/-- Model of `generate_homebrew_formula`. -/
def generate_homebrew_formula (m : Metadata) (calculate_hashes : Bool)
    (fetch : String → Option String) : Except String String :=
  match sanitize_input m.name 50 (some name_allowed_chars) with
  | .error e => .error e
  | .ok name =>
  match validate_version m.version with
  | .error e => .error e
  | .ok version =>
  match validate_url m.repository with
  | .error e => .error e
  | .ok repository =>
  match validate_url m.homepage with
  | .error e => .error e
  | .ok homepage =>
  let sha256_hash :=
    if calculate_hashes then
      match fetch (repository ++ "/archive/v" ++ version ++ ".tar.gz") with
      | some h => h
      | none => "PLACEHOLDER_SHA256"
    else "PLACEHOLDER_SHA256"
  .ok ("class " ++ pyCapitalize name
    ++ " < Formula\n  desc \"" ++ pyToStr m.description
    ++ "\"\n  homepage \"" ++ homepage
    ++ "\"\n  url \"" ++ repository
    ++ "/archive/v" ++ version
    ++ ".tar.gz\"\n  sha256 \"" ++ sha256_hash
    ++ "\"\n  license \"" ++ pyToStr m.license
    ++ "\"\n\n  depends_on \"rust\" => :build\n\n  def install\n    system \"cargo\", \"install\", *std_cargo_args\n  end\n\n  test do\n    assert_match \"" ++ pyToStr m.name
    ++ "\", shell_output(\"#\x7bbin\x7d/" ++ pyToStr m.name
    ++ " --help\")\n  end\nend")

/-- Model of `generate_chocolatey_nuspec`. -/
def generate_chocolatey_nuspec (m : Metadata) (calculate_hashes : Bool)
    (fetch : String → Option String) : Except String String :=
  match sanitize_input m.name 50 (some name_allowed_chars) with
  | .error e => .error e
  | .ok name =>
  match validate_version m.version with
  | .error e => .error e
  | .ok version =>
  match validate_url m.repository with
  | .error e => .error e
  | .ok repository =>
  match m.authors with
  | [] => .error "IndexError: list index out of range"
  | author0 :: _ =>
  let author := pyStrip (String.mk (author0.data.takeWhile (· ≠ '<')))
  let tags := pyJoin m.keywords
  .ok ("<?xml version=\"1.0\" encoding=\"utf-8\"?>\n<package xmlns=\"http://schemas.microsoft.com/packaging/2015/06/nuspec.xsd\">\n  <metadata>\n    <id>" ++ name
    ++ "</id>\n    <version>" ++ version
    ++ "</version>\n    <packageSourceUrl>" ++ repository
    ++ "/tree/main/packaging/chocolatey</packageSourceUrl>\n    <owners>" ++ author
    ++ "</owners>\n    <title>" ++ pyCapitalize name
    ++ "</title>\n    <authors>" ++ author
    ++ "</authors>\n    <projectUrl>" ++ repository
    ++ "</projectUrl>\n    <iconUrl>" ++ repository
    ++ "/raw/main/screenshots/workers-view.png</iconUrl>\n    <copyright>2024 " ++ author
    ++ "</copyright>\n    <licenseUrl>" ++ repository
    ++ "/blob/main/LICENSE</licenseUrl>\n    <requireLicenseAcceptance>false</requireLicenseAcceptance>\n    <projectSourceUrl>" ++ repository
    ++ "</projectSourceUrl>\n    <docsUrl>" ++ repository
    ++ "/blob/main/README.md</docsUrl>\n    <bugTrackerUrl>" ++ repository
    ++ "/issues</bugTrackerUrl>\n    <tags>" ++ tags
    ++ "</tags>\n    <summary>" ++ pyToStr m.description
    ++ "</summary>\n    <description>\n" ++ pyToStr m.description
    ++ "\n\n## Features\n- Real-time monitoring of Celery workers and tasks\n- Task management (retry, revoke, purge queues)\n- Redis broker support with real Celery protocol integration\n- Intuitive terminal interface with vim-style navigation\n- Cross-platform support (Linux, macOS, Windows)\n\n## Usage\nRun `" ++ name
    ++ "` in your terminal to start monitoring your Celery infrastructure.\n    </description>\n    <releaseNotes>" ++ repository
    ++ "/releases</releaseNotes>\n  </metadata>\n  <files>\n    <file src=\"tools\\**\" target=\"tools\" />\n  </files>\n</package>")

/-- Model of `generate_scoop_manifest` (the dict is rendered through
`json.dumps(manifest, indent=4)`, reproduced literally here). -/
def generate_scoop_manifest (m : Metadata) (calculate_hashes : Bool)
    (fetch : String → Option String) : Except String String :=
  match sanitize_input m.name 50 (some name_allowed_chars) with
  | .error e => .error e
  | .ok name =>
  match validate_version m.version with
  | .error e => .error e
  | .ok version =>
  match validate_url m.repository with
  | .error e => .error e
  | .ok repository =>
  match validate_url m.homepage with
  | .error e => .error e
  | .ok homepage =>
  let sha256_hash :=
    if calculate_hashes then
      match fetch (repository ++ "/releases/download/v" ++ version ++ "/" ++ name
          ++ "-windows-x86_64.zip") with
      | some h => h
      | none => "PLACEHOLDER_SHA256"
    else "PLACEHOLDER_SHA256"
  .ok ("\x7b\n    \"version\": " ++ jsonStr version
    ++ ",\n    \"description\": " ++ jsonStr (pyToStr m.description)
    ++ ",\n    \"homepage\": " ++ jsonStr homepage
    ++ ",\n    \"license\": " ++ jsonStr (pyToStr m.license)
    ++ ",\n    \"architecture\": \x7b\n        \"64bit\": \x7b\n            \"url\": "
    ++ jsonStr (repository ++ "/releases/download/v" ++ version ++ "/" ++ name ++ "-windows-x86_64.zip")
    ++ ",\n            \"hash\": " ++ jsonStr sha256_hash
    ++ ",\n            \"extract_dir\": \"\"\n        \x7d\n    \x7d,\n    \"bin\": "
    ++ jsonStr (name ++ ".exe")
    ++ ",\n    \"checkver\": \x7b\n        \"github\": " ++ jsonStr repository
    ++ "\n    \x7d,\n    \"autoupdate\": \x7b\n        \"architecture\": \x7b\n            \"64bit\": \x7b\n                \"url\": "
    ++ jsonStr (repository ++ "/releases/download/v$version/" ++ name ++ "-windows-x86_64.zip")
    ++ "\n            \x7d\n        \x7d\n    \x7d\n\x7d")

/-- Model of `generate_snapcraft_yaml`. -/
def generate_snapcraft_yaml (m : Metadata) (calculate_hashes : Bool)
    (fetch : String → Option String) : Except String String :=
  match sanitize_input m.name 50 (some name_allowed_chars) with
  | .error e => .error e
  | .ok name =>
  match validate_version m.version with
  | .error e => .error e
  | .ok version =>
  match validate_url m.repository with
  | .error e => .error e
  | .ok repository =>
  .ok ("name: " ++ name
    ++ "\nbase: core22\nversion: '" ++ version
    ++ "'\nsummary: " ++ pyToStr m.description
    ++ "\ndescription: |\n  " ++ pyToStr m.description
    ++ "\n  \n  Features:\n  - Real-time monitoring of Celery workers and tasks\n  - Task management (retry, revoke, purge queues)\n  - Redis broker support with real Celery protocol integration\n  - Intuitive terminal interface with vim-style navigation\n  - Cross-platform support\n\ngrade: stable\nconfinement: strict\n\narchitectures:\n  - build-on: amd64\n  - build-on: arm64\n\napps:\n  " ++ name
    ++ ":\n    command: bin/" ++ name
    ++ "\n    plugs:\n      - network\n      - network-bind\n      - home\n\nparts:\n  " ++ name
    ++ ":\n    plugin: rust\n    source: " ++ repository
    ++ ".git\n    source-tag: v" ++ version
    ++ "\n    rust-features: []\n    build-packages:\n      - build-essential\n      - pkg-config\n    override-build: |\n      craftctl default\n      # Strip the binary to reduce size\n      strip $CRAFT_PART_INSTALL/bin/" ++ name)

/-! ## Substring lemmas for the placeholder-hash facts -/

theorem containsL_append_right {t sub : List Char} (x : List Char)
    (h : containsL t sub = true) : containsL (x ++ t) sub = true := by
  induction x with
  | nil => simpa using h
  | cons c cs ih =>
    unfold containsL
    simp only [List.cons_append]
    rw [ih]
    simp

theorem containsL_here (sub y : List Char) : containsL (sub ++ y) sub = true := by
  have hpre : sub.isPrefixOf (sub ++ y) = true := by
    rw [List.isPrefixOf_iff_prefix]
    exact ⟨y, rfl⟩
  unfold containsL
  rw [hpre]
  simp

/-! ## Which fields each generator validates (claim C1) -/

theorem generate_pkgbuild_source_checks (m : Metadata) (ch : Bool)
    (f : String → Option String) :
    (generate_pkgbuild_source m ch f).isOk =
      ((sanitize_input m.name 50 (some name_allowed_chars)).isOk &&
       (validate_version m.version).isOk &&
       (validate_url m.repository).isOk &&
       (validate_url m.homepage).isOk &&
       !m.authors.isEmpty) := by
  unfold generate_pkgbuild_source
  cases h1 : sanitize_input m.name 50 (some name_allowed_chars) <;>
  cases h2 : validate_version m.version <;>
  cases h3 : validate_url m.repository <;>
  cases h4 : validate_url m.homepage <;>
  cases h5 : m.authors <;>
  simp [Except.isOk, Except.toBool]

theorem generate_pkgbuild_bin_checks (m : Metadata) (ch : Bool)
    (f : String → Option String) :
    (generate_pkgbuild_bin m ch f).isOk =
      ((sanitize_input m.name 50 (some name_allowed_chars)).isOk &&
       (validate_version m.version).isOk &&
       (validate_url m.repository).isOk &&
       (validate_url m.homepage).isOk &&
       !m.authors.isEmpty) := by
  unfold generate_pkgbuild_bin
  cases h1 : sanitize_input m.name 50 (some name_allowed_chars) <;>
  cases h2 : validate_version m.version <;>
  cases h3 : validate_url m.repository <;>
  cases h4 : validate_url m.homepage <;>
  cases h5 : m.authors <;>
  simp [Except.isOk, Except.toBool]

theorem generate_homebrew_formula_checks (m : Metadata) (ch : Bool)
    (f : String → Option String) :
    (generate_homebrew_formula m ch f).isOk =
      ((sanitize_input m.name 50 (some name_allowed_chars)).isOk &&
       (validate_version m.version).isOk &&
       (validate_url m.repository).isOk &&
       (validate_url m.homepage).isOk) := by
  unfold generate_homebrew_formula
  cases h1 : sanitize_input m.name 50 (some name_allowed_chars) <;>
  cases h2 : validate_version m.version <;>
  cases h3 : validate_url m.repository <;>
  cases h4 : validate_url m.homepage <;>
  simp [Except.isOk, Except.toBool]

theorem generate_chocolatey_nuspec_checks (m : Metadata) (ch : Bool)
    (f : String → Option String) :
    (generate_chocolatey_nuspec m ch f).isOk =
      ((sanitize_input m.name 50 (some name_allowed_chars)).isOk &&
       (validate_version m.version).isOk &&
       (validate_url m.repository).isOk &&
       !m.authors.isEmpty) := by
  unfold generate_chocolatey_nuspec
  cases h1 : sanitize_input m.name 50 (some name_allowed_chars) <;>
  cases h2 : validate_version m.version <;>
  cases h3 : validate_url m.repository <;>
  cases h5 : m.authors <;>
  simp [Except.isOk, Except.toBool]

theorem generate_scoop_manifest_checks (m : Metadata) (ch : Bool)
    (f : String → Option String) :
    (generate_scoop_manifest m ch f).isOk =
      ((sanitize_input m.name 50 (some name_allowed_chars)).isOk &&
       (validate_version m.version).isOk &&
       (validate_url m.repository).isOk &&
       (validate_url m.homepage).isOk) := by
  unfold generate_scoop_manifest
  cases h1 : sanitize_input m.name 50 (some name_allowed_chars) <;>
  cases h2 : validate_version m.version <;>
  cases h3 : validate_url m.repository <;>
  cases h4 : validate_url m.homepage <;>
  simp [Except.isOk, Except.toBool]

theorem generate_snapcraft_yaml_checks (m : Metadata) (ch : Bool)
    (f : String → Option String) :
    (generate_snapcraft_yaml m ch f).isOk =
      ((sanitize_input m.name 50 (some name_allowed_chars)).isOk &&
       (validate_version m.version).isOk &&
       (validate_url m.repository).isOk) := by
  unfold generate_snapcraft_yaml
  cases h1 : sanitize_input m.name 50 (some name_allowed_chars) <;>
  cases h2 : validate_version m.version <;>
  cases h3 : validate_url m.repository <;>
  simp [Except.isOk, Except.toBool]

/-- Any successful `generate_pkgbuild_source` output rendered with
hashing disabled contains the literal placeholder hash. -/
theorem pkgbuild_source_placeholder {m : Metadata} {f : String → Option String}
    {c : String} (h : generate_pkgbuild_source m false f = .ok c) :
    containsS c "PLACEHOLDER_SHA256" = true := by
  unfold generate_pkgbuild_source at h
  revert h
  cases h1 : sanitize_input m.name 50 (some name_allowed_chars) <;>
  cases h2 : validate_version m.version <;>
  cases h3 : validate_url m.repository <;>
  cases h4 : validate_url m.homepage <;>
  cases h5 : m.authors <;>
  intro h <;>
  first
  | exact Except.noConfusion h
  | (dsimp only at h
     simp only [Bool.false_eq_true, reduceIte, Except.ok.injEq] at h
     subst h
     unfold containsS
     simp only [String.data_append, List.append_assoc]
     repeat
       first
       | exact containsL_here _ _
       | apply containsL_append_right)

theorem pkgbuild_bin_placeholder {m : Metadata} {f : String → Option String}
    {c : String} (h : generate_pkgbuild_bin m false f = .ok c) :
    containsS c "PLACEHOLDER_SHA256" = true := by
  unfold generate_pkgbuild_bin at h
  revert h
  cases h1 : sanitize_input m.name 50 (some name_allowed_chars) <;>
  cases h2 : validate_version m.version <;>
  cases h3 : validate_url m.repository <;>
  cases h4 : validate_url m.homepage <;>
  cases h5 : m.authors <;>
  intro h <;>
  first
  | exact Except.noConfusion h
  | (dsimp only at h
     simp only [Bool.false_eq_true, reduceIte, Except.ok.injEq] at h
     subst h
     unfold containsS
     simp only [String.data_append, List.append_assoc]
     repeat
       first
       | exact containsL_here _ _
       | apply containsL_append_right)

theorem homebrew_placeholder {m : Metadata} {f : String → Option String}
    {c : String} (h : generate_homebrew_formula m false f = .ok c) :
    containsS c "PLACEHOLDER_SHA256" = true := by
  unfold generate_homebrew_formula at h
  revert h
  cases h1 : sanitize_input m.name 50 (some name_allowed_chars) <;>
  cases h2 : validate_version m.version <;>
  cases h3 : validate_url m.repository <;>
  cases h4 : validate_url m.homepage <;>
  intro h <;>
  first
  | exact Except.noConfusion h
  | (dsimp only at h
     simp only [Bool.false_eq_true, reduceIte, Except.ok.injEq] at h
     subst h
     unfold containsS
     simp only [String.data_append, List.append_assoc]
     repeat
       first
       | exact containsL_here _ _
       | apply containsL_append_right)

theorem jsonEscape_placeholder :
    jsonEscape "PLACEHOLDER_SHA256" = "PLACEHOLDER_SHA256" := by decide

theorem scoop_placeholder {m : Metadata} {f : String → Option String}
    {c : String} (h : generate_scoop_manifest m false f = .ok c) :
    containsS c "PLACEHOLDER_SHA256" = true := by
  unfold generate_scoop_manifest at h
  revert h
  cases h1 : sanitize_input m.name 50 (some name_allowed_chars) <;>
  cases h2 : validate_version m.version <;>
  cases h3 : validate_url m.repository <;>
  cases h4 : validate_url m.homepage <;>
  intro h <;>
  first
  | exact Except.noConfusion h
  | (dsimp only at h
     simp only [Bool.false_eq_true, reduceIte, jsonStr,
       jsonEscape_placeholder, Except.ok.injEq] at h
     subst h
     unfold containsS
     simp only [String.data_append, List.append_assoc]
     repeat
       first
       | exact containsL_here _ _
       | apply containsL_append_right)

/-- C1, amended: each generator validates its name, version, repository
(and, where used, homepage) fields — its rendering succeeds exactly when
those validations pass (and, where `authors[0]` is used, an author
exists) — but the description, license, authors, and keywords values are
interpolated into the rendered template without passing through
`sanitize_input`/`validate_version`/`validate_url`. -/
theorem c1_generator_validations :
    ∀ (m : Metadata) (ch : Bool) (f : String → Option String),
      (generate_pkgbuild_source m ch f).isOk =
        ((sanitize_input m.name 50 (some name_allowed_chars)).isOk &&
         (validate_version m.version).isOk && (validate_url m.repository).isOk &&
         (validate_url m.homepage).isOk && !m.authors.isEmpty) ∧
      (generate_pkgbuild_bin m ch f).isOk =
        ((sanitize_input m.name 50 (some name_allowed_chars)).isOk &&
         (validate_version m.version).isOk && (validate_url m.repository).isOk &&
         (validate_url m.homepage).isOk && !m.authors.isEmpty) ∧
      (generate_homebrew_formula m ch f).isOk =
        ((sanitize_input m.name 50 (some name_allowed_chars)).isOk &&
         (validate_version m.version).isOk && (validate_url m.repository).isOk &&
         (validate_url m.homepage).isOk) ∧
      (generate_chocolatey_nuspec m ch f).isOk =
        ((sanitize_input m.name 50 (some name_allowed_chars)).isOk &&
         (validate_version m.version).isOk && (validate_url m.repository).isOk &&
         !m.authors.isEmpty) ∧
      (generate_scoop_manifest m ch f).isOk =
        ((sanitize_input m.name 50 (some name_allowed_chars)).isOk &&
         (validate_version m.version).isOk && (validate_url m.repository).isOk &&
         (validate_url m.homepage).isOk) ∧
      (generate_snapcraft_yaml m ch f).isOk =
        ((sanitize_input m.name 50 (some name_allowed_chars)).isOk &&
         (validate_version m.version).isOk && (validate_url m.repository).isOk) :=
  fun m ch f =>
    ⟨generate_pkgbuild_source_checks m ch f,
     generate_pkgbuild_bin_checks m ch f,
     generate_homebrew_formula_checks m ch f,
     generate_chocolatey_nuspec_checks m ch f,
     generate_scoop_manifest_checks m ch f,
     generate_snapcraft_yaml_checks m ch f⟩

/-- A metadata mapping whose description would be rejected by every
validator (it holds quotes, spaces, `$`, `;`, parentheses). -/
def badMeta : Metadata :=
  { name := .str "lazycelery",
    version := .str "0.4.0",
    description := .str "x\"; $(dangerous command); echo \"",
    authors := ["Mallory <m@evil.example>"],
    license := .str "MIT",
    repository := .str "https://github.com/Fguedes90/lazycelery",
    homepage := .str "https://github.com/Fguedes90/lazycelery",
    keywords := .list ["celery", "tui"],
    categories := .list ["command-line-utilities"] }

/-- C1, counterexample: the description field is rejected by
`sanitize_input` (with the default charset), `validate_version` and
`validate_url`, yet `generate_pkgbuild_source` succeeds and embeds it
verbatim in its rendered PKGBUILD — so not every externally sourced
value embedded into output text is passed through a validator first. -/
theorem c1_description_reaches_template_unvalidated :
    (sanitize_input badMeta.description 256 none).isOk = false ∧
    (validate_version badMeta.description).isOk = false ∧
    (validate_url badMeta.description).isOk = false ∧
    (generate_pkgbuild_source badMeta false (fun _ => none)).isOk = true ∧
    containsS
      ((generate_pkgbuild_source badMeta false (fun _ => none)).toOption.getD "")
      (pyToStr badMeta.description) = true :=
  ⟨by decide, by decide, by decide, by decide, by decide⟩

/-- C6: with remote hashing disabled (`calculate_hashes = false`) each
of the six generators is a pure function of its metadata argument: its
output does not depend on the fetch oracle at all, so two invocations
(even against different network behaviours) render byte-identical
strings. -/
theorem c6_generators_deterministic :
    ∀ (m : Metadata) (f g : String → Option String),
      generate_pkgbuild_source m false f = generate_pkgbuild_source m false g ∧
      generate_pkgbuild_bin m false f = generate_pkgbuild_bin m false g ∧
      generate_homebrew_formula m false f = generate_homebrew_formula m false g ∧
      generate_chocolatey_nuspec m false f = generate_chocolatey_nuspec m false g ∧
      generate_scoop_manifest m false f = generate_scoop_manifest m false g ∧
      generate_snapcraft_yaml m false f = generate_snapcraft_yaml m false g := by
  intro m f g
  refine ⟨?_, ?_, ?_, ?_, ?_, ?_⟩ <;> rfl

/-- C8: the loader's `authors` field is always a singleton list — the
first entry of the config's `authors` array, or `"Unknown"` when the
key is absent or the array is empty (any further entries are
discarded). -/
theorem c8_loader_authors (content : String) :
    (load_cargo_metadata content).authors.length = 1 ∧
    (dictGet (parse_toml_simple content) "authors" = none →
      (load_cargo_metadata content).authors = ["Unknown"]) ∧
    (dictGet (parse_toml_simple content) "authors" = some (.list []) →
      (load_cargo_metadata content).authors = ["Unknown"]) ∧
    (∀ a rest, dictGet (parse_toml_simple content) "authors" = some (.list (a :: rest)) →
      (load_cargo_metadata content).authors = [a]) := by
  refine ⟨?_, ?_, ?_, ?_⟩
  · cases h : dictGet (parse_toml_simple content) "authors" with
    | none => simp [load_cargo_metadata, h]
    | some v =>
      cases v with
      | str s => simp [load_cargo_metadata, h]
      | list l => cases l <;> simp [load_cargo_metadata, h]
  · intro h
    simp [load_cargo_metadata, h]
  · intro h
    simp [load_cargo_metadata, h]
  · intro a rest h
    simp [load_cargo_metadata, h]

/-- Witness for C8 at three concrete configuration files (authors key
absent, empty array, two-element array). -/
theorem c8_loader_authors_witness :
    (load_cargo_metadata "[package]").authors = ["Unknown"] ∧
    (load_cargo_metadata "[package]\nauthors = []").authors = ["Unknown"] ∧
    (load_cargo_metadata "[package]\nauthors = [\"A\", \"B\"]").authors = ["A"] :=
  ⟨(c8_loader_authors "[package]").2.1 (by decide),
   (c8_loader_authors "[package]\nauthors = []").2.2.1 (by decide),
   (c8_loader_authors "[package]\nauthors = [\"A\", \"B\"]").2.2.2 "A" ["B"] (by decide)⟩

/-! ## `scripts/validate-versions.py`: the version-consistency checker

The filesystem the checker touches is modelled by `FS`; the two
diagnostic lists of `VersionValidator` by `VState`.  Regular-expression
searches (`re.search`) are modelled by `scanFind` — try a match at every
position, left to right — with one step function per pattern, and
`re.sub` by `scanRewrite`. -/

structure FS where
  cargoToml : Option String
  miseToml : Option String
  dockerfile : Option String
  packagingDirExists : Bool
  packageFiles : List (String × String)
  generateScriptExists : Bool
deriving DecidableEq, Repr

structure VState where
  errors : List String
  warnings : List String
deriving DecidableEq, Repr

/-- Python truthiness of an optional string (`None` and `""` are
falsy). -/
def pyTruthyS : Option String → Bool
  | none => false
  | some s => !s.data.isEmpty

/-- Model of `re.search`: try the pattern's step function at each position. -/
def scanFind {α : Type} (step : List Char → Option α) : List Char → Option α
  | [] => none
  | c :: rest =>
    match step (c :: rest) with
    | some v => some v
    | none => scanFind step rest

/-- The loop of `re.sub`, structurally recursive on a fuel that bounds
the number of iterations (each iteration consumes at least one
character, so `cs.length` fuel always suffices). -/
def scanRewriteFuel (step : List Char → Option (List Char × Nat)) :
    Nat → List Char → List Char
  | 0, _ => []
  | _, [] => []
  | fuel + 1, c :: rest =>
    match step (c :: rest) with
    | some (repl, k) => repl ++ scanRewriteFuel step fuel ((c :: rest).drop (k + 1))
    | none => c :: scanRewriteFuel step fuel rest

/-- Model of `re.sub`: at each position either rewrite a match (consuming `k + 1`
characters) or keep the character and move on. -/
def scanRewrite (step : List Char → Option (List Char × Nat)) (cs : List Char) :
    List Char :=
  scanRewriteFuel step cs.length cs

/-- The checker's own `parse_toml_simple` (string values only, no array
handling). -/
def parseCheckerLines :
    List String → Bool → List (String × String) → List (String × String)
  | [], _, d => d
  | line :: rest, inPkg, d =>
    let l := pyStrip line
    if l == "[package]" then parseCheckerLines rest true d
    else if pyStartsWith l "[" then parseCheckerLines rest false d
    else if inPkg && containsS l "=" then
      let kv := splitOnce l '='
      parseCheckerLines rest inPkg
        (dictInsert d (pyStrip kv.1) (stripQuotes (pyStrip kv.2)))
    else parseCheckerLines rest inPkg d

def checker_parse_toml_simple (content : String) : List (String × String) :=
  parseCheckerLines (pySplitChar content '\n') false []

/-- Model of `get_cargo_version` (appends an error when `Cargo.toml` is
missing). -/
def get_cargo_version (fs : FS) (st : VState) : VState × Option String :=
  match fs.cargoToml with
  | none => ({ st with errors := st.errors ++ ["Cargo.toml not found"] }, none)
  | some content => (st, dictGet (checker_parse_toml_simple content) "version")

/-- Model of `get_cargo_rust_version`. -/
def get_cargo_rust_version (fs : FS) : Option String :=
  fs.cargoToml.bind
    (fun content => dictGet (checker_parse_toml_simple content) "rust-version")

/-- The `[tools]`-section scan of `get_mise_rust_version`: the first
in-section line containing the substring `rust` and an `=`. -/
def miseToolsScan : List String → Bool → Option String
  | [], _ => none
  | line :: rest, inTools =>
    let l := pyStrip line
    if l == "[tools]" then miseToolsScan rest true
    else if pyStartsWith l "[" then miseToolsScan rest false
    else if inTools && containsS l "rust" && containsS l "=" then
      some (stripQuotes (pyStrip (splitOnce l '=').2))
    else miseToolsScan rest inTools

def get_mise_rust_version (fs : FS) : Option String :=
  fs.miseToml.bind (fun content => miseToolsScan (pySplitChar content '\n') false)

/-- One position of `re.search(r'FROM rust:([0-9.]+)', …)`. -/
def dockerRustStep (cs : List Char) : Option String :=
  if "FROM rust:".data.isPrefixOf cs then
    let run := (cs.drop 10).takeWhile (fun c => c.isDigit || c == '.')
    if run.isEmpty then none else some (String.mk run)
  else none

def get_dockerfile_rust_version (fs : FS) : Option String :=
  fs.dockerfile.bind (fun content => scanFind dockerRustStep content.data)

/-- The errors, warnings and `all_good` result of
`validate_rust_versions`, in append order. -/
def rust_version_issues (fs : FS) : List String × List String × Bool :=
  let cargo_rust := get_cargo_rust_version fs
  let mise_rust := get_mise_rust_version fs
  let docker_rust := get_dockerfile_rust_version fs
  let e1 := if pyTruthyS cargo_rust then [] else ["No rust-version found in Cargo.toml"]
  let e2 := if pyTruthyS mise_rust then [] else ["No Rust version found in .mise.toml"]
  let w1 := if pyTruthyS docker_rust then [] else ["No Rust version found in Dockerfile"]
  let m1 := pyTruthyS cargo_rust && pyTruthyS mise_rust && !(cargo_rust == mise_rust)
  let e3 := if m1 then
      ["Rust version mismatch: Cargo.toml=" ++ cargo_rust.getD "" ++
        ", .mise.toml=" ++ mise_rust.getD ""]
    else []
  let m2 := pyTruthyS cargo_rust && pyTruthyS docker_rust && !(cargo_rust == docker_rust)
  let e4 := if m2 then
      ["Rust version mismatch: Cargo.toml=" ++ cargo_rust.getD "" ++
        ", Dockerfile=" ++ docker_rust.getD ""]
    else []
  let m3 := pyTruthyS mise_rust && pyTruthyS docker_rust && !(mise_rust == docker_rust)
  let e5 := if m3 then
      ["Rust version mismatch: .mise.toml=" ++ mise_rust.getD "" ++
        ", Dockerfile=" ++ docker_rust.getD ""]
    else []
  (e1 ++ e2 ++ e3 ++ e4 ++ e5, w1,
   pyTruthyS cargo_rust && pyTruthyS mise_rust && !m1 && !m2 && !m3)

def validate_rust_versions (fs : FS) (st : VState) : VState × Bool :=
  let d := rust_version_issues fs
  (⟨st.errors ++ d.1, st.warnings ++ d.2.1⟩, d.2.2)

/-- One position of `re.search(r'<version>([^<]+)</version>', …)`. -/
def nuspecVersionStep (cs : List Char) : Option String :=
  if "<version>".data.isPrefixOf cs then
    let rest := cs.drop 9
    let v := rest.takeWhile (fun c => c ≠ '<')
    if v.isEmpty then none
    else if "</version>".data.isPrefixOf (rest.drop v.length) then some (String.mk v)
    else none
  else none

/-- The trailing literal `\.tar\.gz"` of the Homebrew pattern. -/
def tarGzLit : List Char := ".tar.gz\"".data

/-- Greedy `[0-9.]+` before that literal: try the capture lengths from
longest to shortest. -/
def homebrewTryK (after : List Char) : Nat → Option Nat
  | 0 => none
  | k + 1 =>
    if tarGzLit.isPrefixOf (after.drop (k + 1)) then some (k + 1)
    else homebrewTryK after k

/-- Greedy `.*` before the `v`: try the `v` positions from rightmost to
leftmost. -/
def homebrewTryVs (line : List Char) : List Nat → Option String
  | [] => none
  | i :: is =>
    let after := line.drop (i + 1)
    let run := after.takeWhile (fun c => c.isDigit || c == '.')
    match homebrewTryK after run.length with
    | some k => some (String.mk (after.take k))
    | none => homebrewTryVs line is

/-- One position of `re.search(r'url ".*v([0-9.]+)\.tar\.gz"', …)`
(`.` does not cross a newline, so the whole match stays on one line). -/
def homebrewVersionStep (cs : List Char) : Option String :=
  if "url \"".data.isPrefixOf cs then
    let line := (cs.drop 5).takeWhile (fun c => c ≠ '\n')
    homebrewTryVs line
      (((List.range line.length).filter (fun i => line.get? i == some 'v')).reverse)
  else none

/-- One position of `re.search(r'"version":\s*"([^"]+)"', …)`. -/
def scoopVersionStep (cs : List Char) : Option String :=
  if "\"version\":".data.isPrefixOf cs then
    match (cs.drop 10).dropWhile pyIsSpace with
    | '"' :: r =>
      let v := r.takeWhile (fun c => c ≠ '"')
      if v.isEmpty then none
      else
        match r.drop v.length with
        | '"' :: _ => some (String.mk v)
        | _ => none
    | _ => none
  else none

/-- One position of `re.search(r"version:\s*'([^']+)'", …)`. -/
def snapVersionStep (cs : List Char) : Option String :=
  if "version:".data.isPrefixOf cs then
    match (cs.drop 8).dropWhile pyIsSpace with
    | '\'' :: r =>
      let v := r.takeWhile (fun c => c ≠ '\'')
      if v.isEmpty then none
      else
        match r.drop v.length with
        | '\'' :: _ => some (String.mk v)
        | _ => none
    | _ => none
  else none

/-- One position of `re.search(r'pkgver=([0-9.]+)', …)`. -/
def pkgverStep (cs : List Char) : Option String :=
  if "pkgver=".data.isPrefixOf cs then
    let run := (cs.drop 7).takeWhile (fun c => c.isDigit || c == '.')
    if run.isEmpty then none else some (String.mk run)
  else none

/-- The checker's `package_files` table: path and version-extraction
pattern per generated file. -/
def packageFileEntries : List (String × (String → Option String)) :=
  [("packaging/chocolatey/lazycelery.nuspec",
      fun content => scanFind nuspecVersionStep content.data),
   ("packaging/homebrew/lazycelery.rb",
      fun content => scanFind homebrewVersionStep content.data),
   ("packaging/scoop/lazycelery.json",
      fun content => scanFind scoopVersionStep content.data),
   ("packaging/snap/snapcraft.yaml",
      fun content => scanFind snapVersionStep content.data),
   ("packaging/aur/PKGBUILD",
      fun content => scanFind pkgverStep content.data),
   ("packaging/aur/PKGBUILD-bin",
      fun content => scanFind pkgverStep content.data)]

/-- The per-file loop of `validate_package_versions`: errors, warnings
and `all_good` accumulated in iteration order. -/
def packageFileIssues (fs : FS) (cargoVersion : String) :
    List (String × (String → Option String)) → List String × List String × Bool
  | [] => ([], [], true)
  | (path, extract) :: rest =>
    let tail := packageFileIssues fs cargoVersion rest
    match dictGet fs.packageFiles path with
    | none => (tail.1, ("Package file not found: " ++ path) :: tail.2.1, tail.2.2)
    | some content =>
      match extract content with
      | none => (tail.1, ("Could not find version in " ++ path) :: tail.2.1, tail.2.2)
      | some found =>
        if found == cargoVersion then tail
        else
          (("Version mismatch in " ++ path ++ ": found=" ++ found ++
              ", expected=" ++ cargoVersion) :: tail.1,
           tail.2.1, false)

/-- The errors, warnings and result of `validate_package_versions`. -/
def package_version_issues (fs : FS) : List String × List String × Bool :=
  match fs.cargoToml with
  | none => (["Cargo.toml not found", "Could not determine version from Cargo.toml"], [], false)
  | some content =>
    let cargo_version := dictGet (checker_parse_toml_simple content) "version"
    if !(pyTruthyS cargo_version) then
      (["Could not determine version from Cargo.toml"], [], false)
    else if !fs.packagingDirExists then
      ([], ["No packaging directory found"], true)
    else
      packageFileIssues fs (cargo_version.getD "") packageFileEntries

def validate_package_versions (fs : FS) (st : VState) : VState × Bool :=
  let d := package_version_issues fs
  (⟨st.errors ++ d.1, st.warnings ++ d.2.1⟩, d.2.2)

/-- Suffixes `check_placeholder_hashes` inspects. -/
def hashSuffixes : List String := [".rb", ".json", ".yaml", ".yml", ".nuspec"]

/-- The placeholder scan over the packaging tree (modelled over the
known package files, in list order). -/
def placeholder_warnings : List (String × String) → List String
  | [] => []
  | (path, content) :: rest =>
    if hashSuffixes.any (fun suf => pyEndsWith path suf) &&
        containsS content "PLACEHOLDER_SHA256" then
      ("Placeholder SHA256 found in " ++ path) :: placeholder_warnings rest
    else placeholder_warnings rest

/-- Model of `check_placeholder_hashes`: warnings only, always returns `True`. -/
def check_placeholder_hashes (fs : FS) (st : VState) : VState × Bool :=
  if !fs.packagingDirExists then (st, true)
  else (⟨st.errors, st.warnings ++ placeholder_warnings fs.packageFiles⟩, true)

/-- Model of `validate_all`. -/
def validate_all (fs : FS) (st : VState) : VState × Bool :=
  let r := validate_rust_versions fs st
  let p := validate_package_versions fs r.1
  let c := check_placeholder_hashes fs p.1
  (c.1, r.2 && p.2)

/-- One position of `re.sub(r'rust-version = "[^"]*"', …)`. -/
def rustVersionSubStep (target : String) (cs : List Char) :
    Option (List Char × Nat) :=
  if "rust-version = \"".data.isPrefixOf cs then
    let after := cs.drop 16
    let run := after.takeWhile (fun c => c ≠ '"')
    match after.drop run.length with
    | '"' :: _ => some (("rust-version = \"" ++ target ++ "\"").data, 16 + run.length)
    | _ => none
  else none

/-- One position of `re.sub(r'FROM rust:[0-9.]+', …)`. -/
def dockerRustSubStep (target : String) (cs : List Char) :
    Option (List Char × Nat) :=
  if "FROM rust:".data.isPrefixOf cs then
    let run := (cs.drop 10).takeWhile (fun c => c.isDigit || c == '.')
    if run.isEmpty then none
    else some (("FROM rust:" ++ target).data, 9 + run.length)
  else none

/-- Model of `fix_rust_versions`: rewrite `Cargo.toml`'s `rust-version` and the
Dockerfile's `FROM rust:` line to the target version; report whether
anything changed. -/
def fix_rust_versions (fs : FS) (target : String) : FS × Bool :=
  let step1 : FS × Bool :=
    match fs.cargoToml with
    | none => (fs, false)
    | some content =>
      let newContent := String.mk (scanRewrite (rustVersionSubStep target) content.data)
      if newContent == content then (fs, false)
      else ({ fs with cargoToml := some newContent }, true)
  match step1.1.dockerfile with
  | none => step1
  | some content =>
    let newContent := String.mk (scanRewrite (dockerRustSubStep target) content.data)
    if newContent == content then step1
    else ({ step1.1 with dockerfile := some newContent }, true)

/-- The generator driver's `(output path, generator)` table, with the
paths the checker sees (the driver's `script_dir` is `packaging/`). -/
def generatorTable :
    List (String × (Metadata → Bool → (String → Option String) → Except String String)) :=
  [("packaging/aur/PKGBUILD", generate_pkgbuild_source),
   ("packaging/aur/PKGBUILD-bin", generate_pkgbuild_bin),
   ("packaging/homebrew/lazycelery.rb", generate_homebrew_formula),
   ("packaging/chocolatey/lazycelery.nuspec", generate_chocolatey_nuspec),
   ("packaging/scoop/lazycelery.json", generate_scoop_manifest),
   ("packaging/snap/snapcraft.yaml", generate_snapcraft_yaml)]

/-- The driver's per-file loop: write each successful rendering, skip
(and log) a generator that raises. -/
def runGenerators (m : Metadata) (ch : Bool) (fetch : String → Option String) :
    List (String × (Metadata → Bool → (String → Option String) → Except String String)) →
      List (String × String)
  | [] => []
  | (path, gen) :: rest =>
    match gen m ch fetch with
    | .ok content => (path, content) :: runGenerators m ch fetch rest
    | .error _ => runGenerators m ch fetch rest

/-- The generator script's `main`: exit code and the files it wrote.
Exit 1 with nothing written when `Cargo.toml` is missing or its critical
metadata is invalid; per-file failures are skipped, not fatal. -/
def genMain (cargoToml : Option String) (calculate_hashes : Bool)
    (fetch : String → Option String) : Nat × List (String × String) :=
  match cargoToml with
  | none => (1, [])
  | some content =>
    let m := load_cargo_metadata content
    if (validate_version m.version).isOk && (validate_url m.repository).isOk &&
        (validate_url m.homepage).isOk &&
        (sanitize_input m.name 50 (some name_allowed_chars)).isOk then
      (0, runGenerators m calculate_hashes fetch generatorTable)
    else (1, [])

/-- The files `fix_package_versions` regenerates: it re-invokes the
generator script as a subprocess *without* `--calculate-hashes` (and
with no network use), so `calculate_hashes` is `false` there. -/
def fixRegenerated (fs : FS) : List (String × String) :=
  (genMain fs.cargoToml false (fun _ => none)).2

def upsertAll (d : List (String × String)) :
    List (String × String) → List (String × String)
  | [] => d
  | (k, v) :: rest => upsertAll (dictInsert d k v) rest

/-- Model of `fix_package_versions`. -/
def fix_package_versions (fs : FS) : FS × Bool :=
  if !fs.generateScriptExists then (fs, false)
  else
    let code := (genMain fs.cargoToml false (fun _ => none)).1
    let files := fixRegenerated fs
    ({ fs with packageFiles := upsertAll fs.packageFiles files,
               packagingDirExists := fs.packagingDirExists || !files.isEmpty },
     code == 0)

/-- The checker's `main`: validate; on `--fix` with a failed validation,
fix the Rust versions (the `.mise.toml` value is authoritative),
regenerate the package files, clear the diagnostics and re-validate;
exit 0 exactly when the final validation returned `True`. -/
def checkerMain (fs : FS) (fix : Bool) : Nat × FS × VState :=
  let v1 := validate_all fs ⟨[], []⟩
  if fix && !v1.2 then
    let mise_rust := get_mise_rust_version fs
    let cargo_version := (get_cargo_version fs v1.1).2
    let fs1 := if pyTruthyS mise_rust then (fix_rust_versions fs (mise_rust.getD "")).1 else fs
    let fs2 := if pyTruthyS cargo_version then (fix_package_versions fs1).1 else fs1
    let v2 := validate_all fs2 ⟨[], []⟩
    (if v2.2 then 0 else 1, fs2, v2.1)
  else
    (if v1.2 then 0 else 1, fs, v1.1)

/-! ## Exit status ↔ recorded errors (claim C3) -/

theorem rust_issues_ok_iff (fs : FS) :
    (rust_version_issues fs).2.2 = (rust_version_issues fs).1.isEmpty := by
  simp only [rust_version_issues]
  cases pyTruthyS (get_cargo_rust_version fs) <;>
  cases pyTruthyS (get_mise_rust_version fs) <;>
  cases pyTruthyS (get_dockerfile_rust_version fs) <;>
  cases get_cargo_rust_version fs == get_mise_rust_version fs <;>
  cases get_cargo_rust_version fs == get_dockerfile_rust_version fs <;>
  cases get_mise_rust_version fs == get_dockerfile_rust_version fs <;>
  simp

theorem packageFileIssues_ok_iff (fs : FS) (v : String) :
    ∀ entries, (packageFileIssues fs v entries).2.2 =
      (packageFileIssues fs v entries).1.isEmpty := by
  intro entries
  induction entries with
  | nil => rfl
  | cons e rest ih =>
    obtain ⟨path, extract⟩ := e
    simp only [packageFileIssues]
    cases hd : dictGet fs.packageFiles path with
    | none => simpa using ih
    | some content =>
      cases he : extract content with
      | none =>
        simp only [he]
        simpa using ih
      | some found =>
        by_cases hf : (found == v) = true
        · simp only [he]
          simpa [hf] using ih
        · simp only [he]
          simp [hf]

theorem package_issues_ok_iff (fs : FS) :
    (package_version_issues fs).2.2 = (package_version_issues fs).1.isEmpty := by
  unfold package_version_issues
  cases h : fs.cargoToml with
  | none => rfl
  | some content =>
    dsimp only
    by_cases ht : pyTruthyS (dictGet (checker_parse_toml_simple content) "version")
    · by_cases hd : fs.packagingDirExists
      · simp [ht, hd, packageFileIssues_ok_iff]
      · simp [ht, hd]
    · simp [ht]

theorem validate_all_ok_iff (fs : FS) :
    (validate_all fs ⟨[], []⟩).2 = true ↔ (validate_all fs ⟨[], []⟩).1.errors = [] := by
  unfold validate_all validate_rust_versions validate_package_versions
    check_placeholder_hashes
  dsimp only
  by_cases hd : fs.packagingDirExists <;>
    simp [hd, rust_issues_ok_iff, package_issues_ok_iff, List.isEmpty_iff]

theorem validate_all_exit_iff (fs : FS) :
    ((if (validate_all fs ⟨[], []⟩).2 then (0 : Nat) else 1) = 0 ↔
      (validate_all fs ⟨[], []⟩).1.errors = []) := by
  rw [← validate_all_ok_iff]
  by_cases h : (validate_all fs ⟨[], []⟩).2 <;> simp [h]

/-- C3: the checker exits 0 exactly when the validation pass that
produced its final state (the re-validation pass, in fix mode) recorded
no errors; the warnings list does not enter the exit decision. -/
theorem c3_exit_zero_iff_no_errors (fs : FS) (fix : Bool) :
    (checkerMain fs fix).1 = 0 ↔ (checkerMain fs fix).2.2.errors = [] := by
  unfold checkerMain
  by_cases hb : (fix && !(validate_all fs ⟨[], []⟩).2) = true
  · rw [if_pos hb]
    dsimp only
    exact validate_all_exit_iff _
  · rw [if_neg hb]
    exact validate_all_exit_iff fs

/-- C4: with the toolchain version present (and equal) in `.mise.toml`
and `Cargo.toml` but absent from the Dockerfile, `validate_rust_versions`
records exactly one warning — the missing-Dockerfile message — no error,
and still succeeds; whereas a missing `rust-version` in `Cargo.toml`, or
a missing Rust version in `.mise.toml`, is recorded as an error and
makes the validation pass fail. -/
theorem c4_dockerfile_warning_vs_toml_errors (fs : FS) :
    (pyTruthyS (get_cargo_rust_version fs) = true →
     pyTruthyS (get_mise_rust_version fs) = true →
     pyTruthyS (get_dockerfile_rust_version fs) = false →
     get_cargo_rust_version fs = get_mise_rust_version fs →
     rust_version_issues fs = ([], ["No Rust version found in Dockerfile"], true)) ∧
    (pyTruthyS (get_cargo_rust_version fs) = false →
     "No rust-version found in Cargo.toml" ∈ (rust_version_issues fs).1 ∧
     (rust_version_issues fs).2.2 = false ∧
     (validate_all fs ⟨[], []⟩).2 = false) ∧
    (pyTruthyS (get_mise_rust_version fs) = false →
     "No Rust version found in .mise.toml" ∈ (rust_version_issues fs).1 ∧
     (rust_version_issues fs).2.2 = false ∧
     (validate_all fs ⟨[], []⟩).2 = false) := by
  refine ⟨?_, ?_, ?_⟩
  · intro h1 h2 h3 h4
    simp [rust_version_issues, h1, h2, h3, h4]
  · intro h1
    refine ⟨?_, ?_, ?_⟩
    · simp [rust_version_issues, h1]
    · simp [rust_version_issues, h1]
    · unfold validate_all validate_rust_versions
      dsimp only
      have : (rust_version_issues fs).2.2 = false := by
        simp [rust_version_issues, h1]
      simp [this]
  · intro h1
    refine ⟨?_, ?_, ?_⟩
    · simp [rust_version_issues, h1]
    · simp [rust_version_issues, h1]
    · unfold validate_all validate_rust_versions
      dsimp only
      have : (rust_version_issues fs).2.2 = false := by
        simp [rust_version_issues, h1]
      simp [this]

/-- An `FS` whose toolchain versions agree between `Cargo.toml` and
`.mise.toml` but whose Dockerfile is absent. -/
def fsNoDocker : FS :=
  { cargoToml := some "[package]\nname = \"lazycelery\"\nversion = \"0.4.0\"\nrust-version = \"1.75.0\"\n",
    miseToml := some "[tools]\nrust = \"1.75.0\"\n",
    dockerfile := none,
    packagingDirExists := false,
    packageFiles := [],
    generateScriptExists := true }

/-- An `FS` whose `Cargo.toml` lacks `rust-version` and whose
`.mise.toml` is absent. -/
def fsNoRustVersion : FS :=
  { cargoToml := some "[package]\nname = \"lazycelery\"\nversion = \"0.4.0\"\n",
    miseToml := none,
    dockerfile := none,
    packagingDirExists := false,
    packageFiles := [],
    generateScriptExists := true }

/-- Witness for C4 at two concrete filesystems. -/
theorem c4_dockerfile_warning_vs_toml_errors_witness :
    rust_version_issues fsNoDocker =
      ([], ["No Rust version found in Dockerfile"], true) ∧
    ("No rust-version found in Cargo.toml" ∈ (rust_version_issues fsNoRustVersion).1 ∧
      (rust_version_issues fsNoRustVersion).2.2 = false ∧
      (validate_all fsNoRustVersion ⟨[], []⟩).2 = false) ∧
    ("No Rust version found in .mise.toml" ∈ (rust_version_issues fsNoRustVersion).1 ∧
      (rust_version_issues fsNoRustVersion).2.2 = false ∧
      (validate_all fsNoRustVersion ⟨[], []⟩).2 = false) :=
  ⟨(c4_dockerfile_warning_vs_toml_errors fsNoDocker).1 (by decide) (by decide)
      (by decide) (by decide),
   (c4_dockerfile_warning_vs_toml_errors fsNoRustVersion).2.1 (by decide),
   (c4_dockerfile_warning_vs_toml_errors fsNoRustVersion).2.2 (by decide)⟩

/-- C10: when the checker runs with the fix flag but the initial
validation already succeeds, the fix path is skipped: the filesystem is
returned unchanged (nothing rewritten, nothing regenerated) and the
process exits 0. -/
theorem c10_fix_skipped_when_valid (fs : FS)
    (h : (validate_all fs ⟨[], []⟩).2 = true) :
    (checkerMain fs true).2.1 = fs ∧ (checkerMain fs true).1 = 0 := by
  unfold checkerMain
  simp [h]

/-- A fully consistent concrete filesystem. -/
def fsConsistent : FS :=
  { cargoToml := some "[package]\nname = \"lazycelery\"\nversion = \"0.4.0\"\nrust-version = \"1.75.0\"\n",
    miseToml := some "[tools]\nrust = \"1.75.0\"\n",
    dockerfile := some "FROM rust:1.75.0\nRUN cargo build --release\n",
    packagingDirExists := true,
    packageFiles :=
      [("packaging/chocolatey/lazycelery.nuspec", "<version>0.4.0</version>"),
       ("packaging/homebrew/lazycelery.rb", "  url \"https://x.example/archive/v0.4.0.tar.gz\"\n"),
       ("packaging/scoop/lazycelery.json", "\"version\": \"0.4.0\""),
       ("packaging/snap/snapcraft.yaml", "version: '0.4.0'"),
       ("packaging/aur/PKGBUILD", "pkgver=0.4.0\n"),
       ("packaging/aur/PKGBUILD-bin", "pkgver=0.4.0\n")],
    generateScriptExists := true }

/-- Witness for C10: on a consistent filesystem, `--fix` leaves
everything untouched and exits 0. -/
theorem c10_fix_skipped_when_valid_witness :
    (checkerMain fsConsistent true).2.1 = fsConsistent ∧
      (checkerMain fsConsistent true).1 = 0 :=
  c10_fix_skipped_when_valid fsConsistent (by decide)

/-! ## Fix-mode regeneration and placeholder hashes (claim C9) -/

theorem mem_runGenerators {m : Metadata} {ch : Bool}
    {fetch : String → Option String} :
    ∀ {gens} {p : String} {c : String}, (p, c) ∈ runGenerators m ch fetch gens →
      ∃ g, (p, g) ∈ gens ∧ g m ch fetch = .ok c := by
  intro gens
  induction gens with
  | nil =>
    intro p c h
    simp [runGenerators] at h
  | cons e rest ih =>
    obtain ⟨path, gen⟩ := e
    intro p c h
    simp only [runGenerators] at h
    cases hg : gen m ch fetch with
    | ok content =>
      rw [hg] at h
      dsimp only at h
      rcases List.mem_cons.mp h with he | ht
      · simp only [Prod.mk.injEq] at he
        obtain ⟨rfl, rfl⟩ := he
        exact ⟨gen, by simp, hg⟩
      · obtain ⟨g, hg', hok⟩ := ih ht
        exact ⟨g, by simp [hg'], hok⟩
    | error err =>
      rw [hg] at h
      dsimp only at h
      obtain ⟨g, hg', hok⟩ := ih h
      exact ⟨g, by simp [hg'], hok⟩

/-- The four generated files that carry a SHA256 field. -/
def hashFieldPaths : List String :=
  ["packaging/aur/PKGBUILD", "packaging/aur/PKGBUILD-bin",
   "packaging/homebrew/lazycelery.rb", "packaging/scoop/lazycelery.json"]

/-- C9: `fix_package_versions` re-invokes the generator script without
`--calculate-hashes` (`fixRegenerated` is, by definition, the file set
that fix mode writes), so every regenerated file carrying a hash field
contains the literal `PLACEHOLDER_SHA256`, whatever the filesystem
previously held. -/
theorem c9_fix_regeneration_placeholder_hashes (fs : FS) :
    ((fixRegenerated fs).filter (fun pc => hashFieldPaths.contains pc.1)).all
      (fun pc => containsS pc.2 "PLACEHOLDER_SHA256") = true := by
  rw [List.all_eq_true]
  intro pc hpc
  rw [List.mem_filter] at hpc
  obtain ⟨hmem, hpath⟩ := hpc
  obtain ⟨p, c⟩ := pc
  unfold fixRegenerated genMain at hmem
  cases hct : fs.cargoToml with
  | none =>
    rw [hct] at hmem
    simp at hmem
  | some content =>
    rw [hct] at hmem
    dsimp only at hmem
    split at hmem
    case isTrue hv =>
      obtain ⟨g, hgmem, hok⟩ := mem_runGenerators hmem
      simp only [generatorTable, List.mem_cons, List.not_mem_nil, or_false,
        Prod.mk.injEq] at hgmem
      rcases hgmem with ⟨rfl, rfl⟩ | ⟨rfl, rfl⟩ | ⟨rfl, rfl⟩ | ⟨rfl, rfl⟩ |
        ⟨rfl, rfl⟩ | ⟨rfl, rfl⟩
      · exact pkgbuild_source_placeholder hok
      · exact pkgbuild_bin_placeholder hok
      · exact homebrew_placeholder hok
      · simp [hashFieldPaths] at hpath
      · exact scoop_placeholder hok
      · simp [hashFieldPaths] at hpath
    case isFalse hv =>
      simp at hmem

/-! ## The concrete fix scenario (claim C5) -/

/-- The claim's scenario: `.mise.toml` pins Rust `1.75.0`, `Cargo.toml`
declares `rust-version = "1.74.0"` (and project version `0.4.0`); no
Dockerfile; the packaging directory exists but holds no manifests yet. -/
def fixScenarioFS : FS :=
  { cargoToml := some "[package]\nname = \"lazycelery\"\nversion = \"0.4.0\"\nrust-version = \"1.74.0\"\n",
    miseToml := some "[tools]\nrust = \"1.75.0\"\n",
    dockerfile := none,
    packagingDirExists := true,
    packageFiles := [],
    generateScriptExists := true }

/-- C5: on that scenario the initial validation fails; after `--fix`
the canonical config's `rust-version` reads `1.75.0`, the re-validation
pass records no error at all (in particular no
`Cargo.toml`/`.mise.toml` toolchain-mismatch error), and the process
exits 0. -/
theorem c5_fix_scenario :
    (validate_all fixScenarioFS ⟨[], []⟩).2 = false ∧
    get_cargo_rust_version (checkerMain fixScenarioFS true).2.1 = some "1.75.0" ∧
    (checkerMain fixScenarioFS true).2.2.errors = [] ∧
    (checkerMain fixScenarioFS true).1 = 0 :=
  ⟨by decide, by decide, by decide, by decide⟩

/-- Witness for C2's amended statement: `1.2.3` is in the claim's
grammar and is returned unchanged, and `1.2` is rejected with the
`Invalid version format` error. -/
theorem validate_version_ok_iff_witness :
    validate_version (.str "1.2.3") = .ok "1.2.3" ∧
    validate_version (.str "1.2") = .error "Invalid version format: 1.2" :=
  ⟨(validate_version_ok_iff "1.2.3").2.1
      ⟨['1'], ['2'], ['3'], [], by decide, ⟨by decide, by decide⟩,
        ⟨by decide, by decide⟩, ⟨by decide, by decide⟩, Or.inl rfl⟩,
    (validate_version_ok_iff "1.2").2.2 (by decide)⟩

/-- Witness for C7: the identity characterisation at a custom charset,
the error form of a rejected string, and the charset facts at the
concrete character `a` (code 97). -/
theorem sanitize_input_spec_witness :
    (sanitize_input (.str "ab") 8 (some "ab") = .ok "ab" ↔
      ("ab".length ≤ 8 ∧
        ∀ c ∈ "ab".data, c ∈ ((some "ab").getD default_allowed_chars).data)) ∧
    (sanitize_input (.str "abc") 2 none ≠ .ok "abc" ∧
      (sanitize_input (.str "abc") 2 none =
          .error ("Input exceeds maximum length of " ++ toString 2) ∨
        ∃ c, c ∈ "abc".data ∧
          c ∉ ((none : Option String).getD default_allowed_chars).data ∧
          sanitize_input (.str "abc") 2 none =
            .error ("Invalid character '" ++ String.mk [c] ++ "' in input"))) ∧
    'a'.toNat < 128 ∧
    (Char.ofNat 97 ∈ default_allowed_chars.data ↔
      (65 ≤ 97 ∧ 97 ≤ 90) ∨ (97 ≤ 97 ∧ 97 ≤ 122) ∨ (48 ≤ 97 ∧ 97 ≤ 57) ∨
        97 = 46 ∨ 97 = 45 ∨ 97 = 95 ∨ 97 = 47 ∨ 97 = 58) :=
  ⟨sanitize_input_spec.1 "ab" 8 (some "ab"),
    ⟨by decide, sanitize_input_spec.2.1 "abc" 2 none (by decide)⟩,
    sanitize_input_spec.2.2.2.1 'a' (by decide),
    sanitize_input_spec.2.2.2.2 97 (by decide)⟩
